import Mathlib

/-!
Verification of the unlinked-code-block core of this JavaScriptCore
distribution against its natural-language specification.

The definitions below are a shallow embedding of the code in
src/bytecode/UnlinkedCodeBlock.cpp and src/kjs/Parser.cpp / Parser.h.
C++ `unsigned`/`size_t` quantities are modelled as `Nat`, `int` as `Int`,
pointers that may be null as `Option`, and WTF containers as lists.
Parts of the repository that these translation units use but whose
definitions live in headers not present among the sources
(ExpressionRangeInfo.h, UnlinkedCodeBlock.h inline members, the yacc
grammar behind kjsyyparse) are modelled from the specification and are
marked `Modelled from the spec:` in their doc comments.
-/

namespace JSC

/-- The instruction stream owned by an unlinked code block.  Only its
size (instruction-offset extent, used by the `ASSERT` preconditions) and
its byte size (used for GC extra-memory accounting) are relevant to the
code under verification. -/
structure InstructionStream where
  size : Nat
  sizeInBytes : Nat
deriving DecidableEq, Repr

/-- The unlinked metadata table; only `sizeInBytes` is consulted by
UnlinkedCodeBlock.cpp. -/
structure UnlinkedMetadataTable where
  sizeInBytes : Nat
deriving DecidableEq, Repr

/-- Modelled from the spec: the mode enumeration of `ExpressionRangeInfo`
is declared in ExpressionRangeInfo.h, which is not among these sources.
The spec (section 3) lists four modes: Compact, FatLine, FatColumn and
FatLineAndColumn.  The dispatch in `UnlinkedCodeBlock::getLineAndColumn`
(UnlinkedCodeBlock.cpp lines 124-142) has cases for exactly the three
fat modes; a `CompactMode` value would fall through the switch. -/
inductive ExpressionRangeInfoMode where
  | CompactMode
  | FatLineMode
  | FatColumnMode
  | FatLineAndColumnMode
deriving DecidableEq, Repr, Inhabited

/-- A full-width (line, column) pair stored in the rare-data side table
`m_expressionInfoFatPositions`. -/
structure FatPosition where
  line : Nat
  column : Nat
deriving DecidableEq, Repr, Inhabited

/-- One entry of the source-position table `m_expressionInfo`.  The C++
struct packs these into bitfields; the stored logical values are
modelled. -/
structure ExpressionRangeInfo where
  instructionOffset : Nat
  divotPoint : Nat
  startOffset : Nat
  endOffset : Nat
  mode : ExpressionRangeInfoMode
  position : Nat
deriving DecidableEq, Repr, Inhabited

/-- Modelled from the spec: `UnlinkedHandlerInfo` is declared in a header
absent from these sources.  Per the spec it covers a [start, end)
bytecode-offset range, a handler target and a handler kind
(catch versus finally-equivalent). -/
structure UnlinkedHandlerInfo where
  startOffset : Nat
  endOffset : Nat
  target : Nat
  isCatchHandler : Bool
deriving DecidableEq, Repr

/-- The filter argument of handler lookup: "any handler" versus "only
catch handlers". -/
inductive RequiredHandler where
  | CatchHandler
  | AnyHandler
deriving DecidableEq, Repr

/-- The optional rare-data block: exception handlers and the fat
source-position side table (the type-profiler map is not consulted by the
claims under verification and is represented by its contents). -/
structure RareData where
  m_exceptionHandlers : List UnlinkedHandlerInfo
  m_expressionInfoFatPositions : List FatPosition
deriving DecidableEq, Repr

/-- The state of an `UnlinkedCodeBlock` relevant to the code in
UnlinkedCodeBlock.cpp.  GC cells (function templates) and constant
values are identified by `Nat` tags; the liveness analysis is likewise
an opaque value tagged by `Nat`. -/
structure UnlinkedCodeBlock where
  m_age : Nat
  m_metadata : UnlinkedMetadataTable
  m_instructions : Option InstructionStream
  m_expressionInfo : List ExpressionRangeInfo
  m_rareData : Option RareData
  m_functionDecls : List Nat
  m_functionExprs : List Nat
  m_constantRegisters : List Nat
  m_liveness : Option Nat
  m_outOfLineJumpTargets : List (Nat × Int)
deriving DecidableEq, Repr

/-- What `visitChildren` communicates to the `SlotVisitor`: the barriers
appended for function declarations and expressions, the constant values
appended, and the extra memory reported via
`reportExtraMemoryVisited`. -/
structure VisitEffect where
  appendedDecls : List Nat
  appendedExprs : List Nat
  appendedValues : List Nat
  extraMemoryReported : Nat
deriving DecidableEq, Repr

/-- Embeds `UnlinkedCodeBlock::visitChildren` (UnlinkedCodeBlock.cpp
lines 84-101).  Under the cell lock, on a first visit the age is bumped
to `min (m_age + 1) maxAge`; the function-declaration and
function-expression barriers and the constant registers are appended to
the visitor; the metadata byte size plus, when the instruction stream is
present, its byte size is reported as extra memory.  `maxAge` is a fixed
constant declared in UnlinkedCodeBlock.h (absent from these sources) and
is kept as a parameter. -/
def visitChildren (maxAge : Nat) (b : UnlinkedCodeBlock) (isFirstVisit : Bool) :
    UnlinkedCodeBlock × VisitEffect :=
  let b1 := if isFirstVisit then { b with m_age := min (b.m_age + 1) maxAge } else b
  let extraMemory :=
    b.m_metadata.sizeInBytes +
      (match b.m_instructions with
       | some is => is.sizeInBytes
       | none => 0)
  (b1,
   { appendedDecls := b.m_functionDecls
     appendedExprs := b.m_functionExprs
     appendedValues := b.m_constantRegisters
     extraMemoryReported := extraMemory })

/-- Embeds `UnlinkedCodeBlock::estimatedSize` (UnlinkedCodeBlock.cpp
lines 103-110).  `base` stands for `Base::estimatedSize(cell, vm)`. -/
def estimatedSize (base : Nat) (b : UnlinkedCodeBlock) : Nat :=
  let extraSize :=
    b.m_metadata.sizeInBytes +
      (match b.m_instructions with
       | some is => is.sizeInBytes
       | none => 0)
  base + extraSize

/-- Iterate collector visits over a block; each list element says whether
that visit is the first visit of its collection cycle. -/
def runVisits (maxAge : Nat) (b : UnlinkedCodeBlock) : List Bool → UnlinkedCodeBlock
  | [] => b
  | fv :: rest => runVisits maxAge (visitChildren maxAge b fv).1 rest

/-- Modelled from the spec: the packing constants of ExpressionRangeInfo.h
are absent from these sources; the spec fixes only that a fat-line entry
packs a wide line with a narrow column inside the entry's own position
field and a fat-column entry the reverse.  A 22-bit/8-bit split is used
concretely, with the numerals 256 = 2^8 and 4194304 = 2^22.
`(pos >>> 8) &&& (2^22 - 1)` is written arithmetically as
`pos / 256 % 4194304`, and `pos &&& (2^8 - 1)` as `pos % 256`. -/
def decodeFatLineMode (position : Nat) : Nat × Nat :=
  (position / 256 % 4194304, position % 256)

/-- Modelled from the spec: inverse-direction packing for fat-line mode;
`((line &&& mask) <<< 8) ||| (column &&& mask)` written
arithmetically. -/
def encodeFatLineMode (line column : Nat) : Nat :=
  line % 4194304 * 256 + column % 256

/-- Modelled from the spec: fat-column mode packs an 8-bit line above a
22-bit column. -/
def decodeFatColumnMode (position : Nat) : Nat × Nat :=
  (position / 4194304 % 256, position % 4194304)

/-- Modelled from the spec: inverse-direction packing for fat-column
mode. -/
def encodeFatColumnMode (line column : Nat) : Nat :=
  line % 256 * 4194304 + column % 4194304

/-- The fat-position side table of a block; the C++ code dereferences
`m_rareData` without a null check here (fat entries exist only when rare
data was allocated), modelled as the empty table when absent. -/
def fatPositionsOf (b : UnlinkedCodeBlock) : List FatPosition :=
  match b.m_rareData with
  | some rd => rd.m_expressionInfoFatPositions
  | none => []

/-- Embeds `UnlinkedCodeBlock::getLineAndColumn` (UnlinkedCodeBlock.cpp
lines 124-142).  The C++ function writes through `line`/`column`
references; the incoming values are taken as arguments and the final
values returned.  The switch has cases for the three fat modes only, so
a `CompactMode` entry leaves the references untouched. -/
def getLineAndColumn (b : UnlinkedCodeBlock) (info : ExpressionRangeInfo)
    (line column : Nat) : Nat × Nat :=
  match info.mode with
  | .FatLineMode => decodeFatLineMode info.position
  | .FatColumnMode => decodeFatColumnMode info.position
  | .FatLineAndColumnMode =>
    let fatIndex := info.position
    let fatPos := (fatPositionsOf b).getD fatIndex default
    (fatPos.line, fatPos.column)
  | .CompactMode => (line, column)

/-- The instruction offset stored at index `i` of a source-position
table. -/
def offsetAt (tbl : List ExpressionRangeInfo) (i : Nat) : Nat :=
  (tbl.getD i default).instructionOffset

/-- The table is sorted ascending by instruction offset. -/
def OffsetSorted (tbl : List ExpressionRangeInfo) : Prop :=
  List.Pairwise (fun a b => a.instructionOffset ≤ b.instructionOffset) tbl

instance (tbl : List ExpressionRangeInfo) : Decidable (OffsetSorted tbl) :=
  inferInstanceAs (Decidable (List.Pairwise _ tbl))

/-- Embeds the `while (low < high)` loop of
`UnlinkedCodeBlock::expressionRangeForBytecodeIndex`
(UnlinkedCodeBlock.cpp lines 196-204). -/
def searchLoop (tbl : List ExpressionRangeInfo) (o : Nat) (low high : Nat) : Nat :=
  if low < high then
    let mid := low + (high - low) / 2
    if offsetAt tbl mid ≤ o then
      searchLoop tbl o (mid + 1) high
    else
      searchLoop tbl o low mid
  else low
termination_by high - low
decreasing_by
  all_goals simp_wf
  all_goals omega

/-- The five outputs of `expressionRangeForBytecodeIndex`, written in
C++ through `int&`/`unsigned&` out-parameters. -/
structure ExpressionRange where
  divot : Nat
  startOffset : Nat
  endOffset : Nat
  line : Nat
  column : Nat
deriving DecidableEq, Repr

/-- The result assembled from the table entry at index `k`: the entry's
divot point, start and end offsets, and its decoded line and column
(lines 209-213 of UnlinkedCodeBlock.cpp, with the out-parameters
entering as zero). -/
def entryData (b : UnlinkedCodeBlock) (k : Nat) : ExpressionRange :=
  let info := b.m_expressionInfo.getD k default
  let lc := getLineAndColumn b info 0 0
  { divot := info.divotPoint
    startOffset := info.startOffset
    endOffset := info.endOffset
    line := lc.1
    column := lc.2 }

/-- Embeds `UnlinkedCodeBlock::expressionRangeForBytecodeIndex`
(UnlinkedCodeBlock.cpp lines 180-214): early all-zero return when the
table is empty, otherwise the binary search followed by the `if (!low)
low = 1` clamp and extraction of entry `low - 1`. -/
def expressionRangeForBytecodeIndex (b : UnlinkedCodeBlock) (bytecodeOffset : Nat) :
    ExpressionRange :=
  if b.m_expressionInfo.length = 0 then
    { divot := 0, startOffset := 0, endOffset := 0, line := 0, column := 0 }
  else
    let low0 := searchLoop b.m_expressionInfo bytecodeOffset 0 b.m_expressionInfo.length
    let low := if low0 = 0 then 1 else low0
    entryData b (low - 1)

/-- The `ASSERT(bytecodeIndex.offset() < instructions().size())`
precondition: the instruction stream is present and the offset is within
it. -/
def ValidBytecodeOffset (b : UnlinkedCodeBlock) (o : Nat) : Prop :=
  match b.m_instructions with
  | some is => o < is.size
  | none => False

instance (b : UnlinkedCodeBlock) (o : Nat) : Decidable (ValidBytecodeOffset b o) := by
  unfold ValidBytecodeOffset
  cases b.m_instructions <;> infer_instance

/-- Modelled from the spec: `UnlinkedHandlerInfo::handlerForIndex` is a
template defined in a header absent from these sources; per the spec it
returns the entry whose [start, end) range contains the index and whose
kind satisfies the filter, innermost first by construction order. -/
def handlerForIndexImpl (handlers : List UnlinkedHandlerInfo) (index : Nat)
    (required : RequiredHandler) : Option UnlinkedHandlerInfo :=
  handlers.find? (fun h =>
    (match required with
     | .CatchHandler => h.isCatchHandler
     | .AnyHandler => true)
    && decide (h.startOffset ≤ index) && decide (index < h.endOffset))

/-- Embeds `UnlinkedCodeBlock::handlerForIndex` (UnlinkedCodeBlock.cpp
lines 257-262): null when there is no rare data, else the table
lookup. -/
def handlerForIndex (b : UnlinkedCodeBlock) (index : Nat)
    (required : RequiredHandler) : Option UnlinkedHandlerInfo :=
  match b.m_rareData with
  | none => none
  | some rd => handlerForIndexImpl rd.m_exceptionHandlers index required

/-- Embeds `UnlinkedCodeBlock::handlerForBytecodeIndex`
(UnlinkedCodeBlock.cpp lines 252-255). -/
def handlerForBytecodeIndex (b : UnlinkedCodeBlock) (bytecodeIndex : Nat)
    (required : RequiredHandler) : Option UnlinkedHandlerInfo :=
  handlerForIndex b bytecodeIndex required

/-- Outcome of `outOfLineJumpOffset`: either the stored target, or the
fail-fast `ASSERT(m_outOfLineJumpTargets.contains(bytecodeOffset))`
contract violation. -/
inductive JumpLookup where
  | found (target : Int)
  | contractViolation
deriving DecidableEq, Repr

/-- Association-list model of `WTF::HashMap<unsigned, int>::get` for the
out-of-line jump table. -/
def lookupJump (tbl : List (Nat × Int)) (o : Nat) : Option Int :=
  (tbl.find? (fun p => p.1 == o)).map (fun p => p.2)

/-- Embeds `UnlinkedCodeBlock::outOfLineJumpOffset` (UnlinkedCodeBlock.cpp
lines 284-288): the assertion that the table contains the offset is the
fail-fast path; when it holds the stored target is returned. -/
def outOfLineJumpOffset (b : UnlinkedCodeBlock) (bytecodeOffset : Nat) : JumpLookup :=
  match lookupJump b.m_outOfLineJumpTargets bytecodeOffset with
  | some target => .found target
  | none => .contractViolation

/-- A linked code block handed to `livenessAnalysisSlow`; only its
back-pointer to its unlinked block (checked by the `RELEASE_ASSERT`) and
an opaque payload feeding the analysis are modelled. -/
structure CodeBlock where
  unlinkedCodeBlock : Nat
  payload : Nat
deriving DecidableEq, Repr

/-- Embeds `UnlinkedCodeBlock::livenessAnalysisSlow` (UnlinkedCodeBlock.cpp
lines 268-282).  The `ConcurrentJSLocker` makes the check-and-store
section atomic; the lock-held re-check computes only when `m_liveness`
is still absent.  `compute` stands for
`makeUnique<BytecodeLivenessAnalysis>(codeBlock)`; `count` counts how
many times that computation has run.  Returns the analysis the caller
observes, the updated block, and the updated computation count. -/
def livenessAnalysisSlow (compute : CodeBlock → Nat) (b : UnlinkedCodeBlock)
    (count : Nat) (cb : CodeBlock) : Nat × UnlinkedCodeBlock × Nat :=
  match b.m_liveness with
  | some a => (a, b, count)
  | none =>
    let a := compute cb
    (a, { b with m_liveness := some a }, count + 1)

/-- Run a sequence of callers of `livenessAnalysisSlow`.  The lock
serializes the critical sections, so any concurrent execution of N
callers is some sequential order of their atomic steps; quantifying over
all caller lists covers every interleaving. -/
def runLivenessCallers (compute : CodeBlock → Nat) :
    UnlinkedCodeBlock → Nat → List CodeBlock → List Nat × UnlinkedCodeBlock × Nat
  | b, count, [] => ([], b, count)
  | b, count, cb :: rest =>
    let step := livenessAnalysisSlow compute b count cb
    let restRun := runLivenessCallers compute step.2.1 step.2.2 rest
    (step.1 :: restRun.1, restRun.2.1, restRun.2.2)

end JSC

namespace KJS

/-- Modelled from the spec: `SourceElements` is an AST collaborator type;
instances are identified by a tag, with `freshSourceElements` standing
for the `new SourceElements` allocated by `didFinishParsing` when the
grammar hands it a null pointer. -/
def freshSourceElements : Nat := 0

/-- Embeds the null-coalescing assignment of `Parser::didFinishParsing`
(Parser.cpp line 83): `m_sourceElements = sourceElements ?
sourceElements : new SourceElements`. -/
def didFinishParsing (sourceElements : Option Nat) : Nat :=
  sourceElements.getD freshSourceElements

/-- Modelled from the spec: the outcome of one run of the external
`kjsyyparse()` and lexer.  `parseError` is `kjsyyparse() != 0`,
`lexSawError` is `lexer.sawError()`, `lexLineNo` is `lexer.lineNo()`,
and `accepted` records the argument of the grammar's call to
`didFinishParsing` when the accept action ran (the inner `Option` is the
possibly-null `SourceElements*` it passed). -/
structure ParseRun where
  parseError : Bool
  lexSawError : Bool
  lexLineNo : Int
  accepted : Option (Option Nat)
deriving DecidableEq, Repr

/-- The observable outcome of `Parser::parse(int*, UString*)`: the values
stored through the `errLine` and `errMsg` pointers (when non-null) and
the resulting `m_sourceElements`. -/
structure ParseOutcome where
  errLine : Int
  errMsg : Option String
  sourceElements : Option Nat
deriving DecidableEq, Repr

/-- Embeds `Parser::parse(int*, UString*)` (Parser.cpp lines 36-61):
`*errLine` is initialised to -1 and `*errMsg` to null; `kjsyyparse`
runs (setting `m_sourceElements` through `didFinishParsing` if it
accepts); on a parse or lexer error, `*errLine` receives the lexer's
line number, `*errMsg` the message "Parse error", and
`m_sourceElements` is cleared. -/
def parseInner (run : ParseRun) : ParseOutcome :=
  let elements := run.accepted.map didFinishParsing
  if run.parseError || run.lexSawError then
    { errLine := run.lexLineNo, errMsg := some "Parse error", sourceElements := none }
  else
    { errLine := -1, errMsg := none, sourceElements := elements }

/-- A parsed node as built by `ParsedNode::create` plus `setLoc` in the
templated `Parser::parse` (Parser.h lines 71-89). -/
structure ParsedNode where
  sourceElements : Nat
  firstLine : Int
  lastLine : Int
deriving DecidableEq, Repr

/-- The observable outcome of the templated `Parser::parse`
(Parser.h lines 71-89): the error outputs of the inner parse and the
returned node, non-null exactly when `m_sourceElements` was set. -/
structure TemplatedParseOutcome where
  errLine : Int
  errMsg : Option String
  result : Option ParsedNode
deriving DecidableEq, Repr

/-- Embeds the templated `Parser::parse` (Parser.h lines 71-89):
runs the inner parse, then creates a node from `m_sourceElements` only
when it is non-null, setting its location from the source's first line
and the parser's last line. -/
def parseTemplated (run : ParseRun) (sourceFirstLine lastLine : Int) :
    TemplatedParseOutcome :=
  let o := parseInner run
  { errLine := o.errLine
    errMsg := o.errMsg
    result := o.sourceElements.map (fun es =>
      { sourceElements := es, firstLine := sourceFirstLine, lastLine := lastLine }) }

end KJS

namespace JSC

/-- A freshly constructed block, as after the constructor on
UnlinkedCodeBlock.cpp lines 57-82: age 0, no expression info, no rare
data, no liveness, empty sub-tables. -/
def sampleFreshBlock : UnlinkedCodeBlock :=
  { m_age := 0
    m_metadata := { sizeInBytes := 64 }
    m_instructions := some { size := 30, sizeInBytes := 120 }
    m_expressionInfo := []
    m_rareData := none
    m_functionDecls := []
    m_functionExprs := []
    m_constantRegisters := []
    m_liveness := none
    m_outOfLineJumpTargets := [] }

/-- A block with the spec's scenario table (section 8): entries at
instruction offsets 0 and 10. -/
def sampleExprBlock : UnlinkedCodeBlock :=
  { sampleFreshBlock with
    m_expressionInfo :=
      [ { instructionOffset := 0, divotPoint := 7, startOffset := 2, endOffset := 3,
          mode := .FatLineMode, position := encodeFatLineMode 1 5 },
        { instructionOffset := 10, divotPoint := 20, startOffset := 1, endOffset := 4,
          mode := .FatLineMode, position := encodeFatLineMode 2 1 } ] }

/-- A block with one out-of-line jump entry. -/
def sampleJumpBlock : UnlinkedCodeBlock :=
  { sampleFreshBlock with m_outOfLineJumpTargets := [(3, -12)] }

/-- A block whose rare data holds a fat-position side table. -/
def sampleRareBlock : UnlinkedCodeBlock :=
  { sampleFreshBlock with
    m_rareData := some
      { m_exceptionHandlers := []
        m_expressionInfoFatPositions := [⟨3, 4⟩, ⟨123456, 654321⟩] } }

/-- A compact-mode entry; the dispatch in `getLineAndColumn` has no case
for it. -/
def compactEntry : ExpressionRangeInfo :=
  { instructionOffset := 0, divotPoint := 0, startOffset := 0, endOffset := 0,
    mode := .CompactMode, position := 999 }

/-- A fat-line entry holding the boundary pair (2^22 - 1, 17). -/
def fatLineEntry : ExpressionRangeInfo :=
  { instructionOffset := 0, divotPoint := 0, startOffset := 0, endOffset := 0,
    mode := .FatLineMode, position := encodeFatLineMode 4194303 17 }

/-- A fat-column entry holding the boundary pair (9, 2^22 - 1). -/
def fatColumnEntry : ExpressionRangeInfo :=
  { instructionOffset := 0, divotPoint := 0, startOffset := 0, endOffset := 0,
    mode := .FatColumnMode, position := encodeFatColumnMode 9 4194303 }

/-- A fat-line-and-column entry whose position indexes the side table. -/
def fatBothEntry : ExpressionRangeInfo :=
  { instructionOffset := 0, divotPoint := 0, startOffset := 0, endOffset := 0,
    mode := .FatLineAndColumnMode, position := 1 }

end JSC

namespace JSC

theorem runVisits_age (maxAge : Nat) (vs : List Bool) :
    ∀ (b : UnlinkedCodeBlock) (k : Nat), b.m_age = min k maxAge →
    (runVisits maxAge b vs).m_age = min (k + vs.count true) maxAge := by
  induction vs with
  | nil =>
    intro b k hb
    simpa [runVisits] using hb
  | cons fv rest ih =>
    intro b k hb
    cases fv with
    | true =>
      rw [runVisits]
      have h1 : ((visitChildren maxAge b true).1).m_age = min (k + 1) maxAge := by
        simp [visitChildren, hb]
        omega
      rw [ih _ (k + 1) h1]
      simp [List.count_cons]
      omega
    | false =>
      rw [runVisits]
      have h1 : ((visitChildren maxAge b false).1).m_age = min k maxAge := by
        simp [visitChildren, hb]
      rw [ih _ k h1]
      simp [List.count_cons]

/-- Claim C3: starting from a freshly constructed block (age 0), after a
sequence of collector visits the age counter equals
`min (number of first-visits) maxAge`, and a visit that is not a
first-visit leaves the age counter unchanged. -/
theorem visit_age_saturates (maxAge : Nat) (b : UnlinkedCodeBlock) (vs : List Bool)
    (h0 : b.m_age = 0) :
    (runVisits maxAge b vs).m_age = min (vs.count true) maxAge
    ∧ ∀ c : UnlinkedCodeBlock, ((visitChildren maxAge c false).1).m_age = c.m_age := by
  constructor
  · have := runVisits_age maxAge vs b 0 (by simpa using h0)
    simpa using this
  · intro c
    simp [visitChildren]

/-- Witness for C3: four visits of which three are first-visits take a
fresh block's age to min 3 7 = 3. -/
theorem visit_age_saturates_witness :
    (runVisits 7 sampleFreshBlock [true, false, true, true]).m_age =
      min ([true, false, true, true].count true) 7 :=
  (visit_age_saturates 7 sampleFreshBlock [true, false, true, true] rfl).1

/-- Claim C4: when the source-position table is empty,
`expressionRangeForBytecodeIndex` returns the all-zero range for every
valid bytecode offset (the function returns before the binary-search
branch). -/
theorem expressionRange_empty_table (b : UnlinkedCodeBlock) (o : Nat)
    (hempty : b.m_expressionInfo = []) (hvalid : ValidBytecodeOffset b o) :
    expressionRangeForBytecodeIndex b o =
      { divot := 0, startOffset := 0, endOffset := 0, line := 0, column := 0 } := by
  simp [expressionRangeForBytecodeIndex, hempty]

/-- Witness for C4: the fresh block has an empty table and offset 4 is
valid for its 30-instruction stream. -/
theorem expressionRange_empty_table_witness :
    expressionRangeForBytecodeIndex sampleFreshBlock 4 =
      { divot := 0, startOffset := 0, endOffset := 0, line := 0, column := 0 } :=
  expressionRange_empty_table sampleFreshBlock 4 rfl
    (by show (4 : Nat) < 30; norm_num)

/-- Claim C5: the extra byte count reported to the collector by
`visitChildren` equals what `estimatedSize` adds on top of the base
object size, and both equal the metadata table's byte size plus the
instruction stream's byte size when the stream is present, or the
metadata table's byte size alone when it is absent. -/
theorem visit_extraMemory_matches_estimatedSize (maxAge : Nat)
    (b : UnlinkedCodeBlock) (fv : Bool) (base : Nat) :
    estimatedSize base b = base + (visitChildren maxAge b fv).2.extraMemoryReported
    ∧ (visitChildren maxAge b fv).2.extraMemoryReported =
        (match b.m_instructions with
         | some is => b.m_metadata.sizeInBytes + is.sizeInBytes
         | none => b.m_metadata.sizeInBytes) := by
  constructor
  · simp [estimatedSize, visitChildren]
  · cases h : b.m_instructions <;> simp [visitChildren, h]

/-- Claim C10: a collector visit modifies no field of the block other
than the age counter: the instruction stream, metadata table,
expression-info table, rare data, function declaration and expression
templates, constants, liveness cache pointer, and jump table are all
unchanged. -/
theorem visit_frame (maxAge : Nat) (b : UnlinkedCodeBlock) (fv : Bool) :
    ((visitChildren maxAge b fv).1.m_instructions = b.m_instructions)
    ∧ ((visitChildren maxAge b fv).1.m_metadata = b.m_metadata)
    ∧ ((visitChildren maxAge b fv).1.m_expressionInfo = b.m_expressionInfo)
    ∧ ((visitChildren maxAge b fv).1.m_rareData = b.m_rareData)
    ∧ ((visitChildren maxAge b fv).1.m_functionDecls = b.m_functionDecls)
    ∧ ((visitChildren maxAge b fv).1.m_functionExprs = b.m_functionExprs)
    ∧ ((visitChildren maxAge b fv).1.m_constantRegisters = b.m_constantRegisters)
    ∧ ((visitChildren maxAge b fv).1.m_liveness = b.m_liveness)
    ∧ ((visitChildren maxAge b fv).1.m_outOfLineJumpTargets = b.m_outOfLineJumpTargets) := by
  cases fv <;> simp [visitChildren]

/-- Claim C7: a block without rare data answers every exception-handler
query with the explicit not-found result, for every bytecode offset and
every required-handler filter. -/
theorem handler_none_without_rareData (b : UnlinkedCodeBlock)
    (h : b.m_rareData = none) :
    ∀ (bytecodeIndex : Nat) (required : RequiredHandler),
      handlerForBytecodeIndex b bytecodeIndex required = none := by
  intro idx req
  simp [handlerForBytecodeIndex, handlerForIndex, h]

/-- Witness for C7: the fresh block has no rare data. -/
theorem handler_none_without_rareData_witness :
    handlerForBytecodeIndex sampleFreshBlock 5 RequiredHandler.AnyHandler = none :=
  handler_none_without_rareData sampleFreshBlock rfl 5 RequiredHandler.AnyHandler

/-- Claim C8: `outOfLineJumpOffset` is an exact-match lookup: when the
table contains the offset it returns the stored target, and an offset
absent from the table is a fail-fast contract violation, never a
recoverable result. -/
theorem outOfLineJump_exact_or_violation (b : UnlinkedCodeBlock) (o : Nat) (t : Int)
    (h : lookupJump b.m_outOfLineJumpTargets o = some t) :
    outOfLineJumpOffset b o = JumpLookup.found t
    ∧ ∀ (c : UnlinkedCodeBlock) (o2 : Nat),
        lookupJump c.m_outOfLineJumpTargets o2 = none →
        outOfLineJumpOffset c o2 = JumpLookup.contractViolation := by
  constructor
  · simp [outOfLineJumpOffset, h]
  · intro c o2 h2
    simp [outOfLineJumpOffset, h2]

/-- Witness for C8: the jump-table block maps offset 3 to target -12, and
the fresh block (empty table) fails fast at offset 9. -/
theorem outOfLineJump_witness :
    outOfLineJumpOffset sampleJumpBlock 3 = JumpLookup.found (-12)
    ∧ outOfLineJumpOffset sampleFreshBlock 9 = JumpLookup.contractViolation := by
  have h := outOfLineJump_exact_or_violation sampleJumpBlock 3 (-12) (by decide)
  exact ⟨h.1, h.2 sampleFreshBlock 9 (by decide)⟩

end JSC

namespace KJS

/-- Claim C9: whenever `kjsyyparse` reports an error or the lexer saw an
error, `Parser::parse` surfaces the lexer's current line number and a
parse-error message and clears the stored source elements, so the
templated `Parser::parse` returns no node; on success the error line
stays -1, the message stays null, and a parsed node is returned.  The
hypothesis `hacc` models the external grammar: when `kjsyyparse`
returns 0 its accept action has called `didFinishParsing`. -/
theorem parse_error_surfacing (run : ParseRun) (sourceFirstLine lastLine : Int)
    (hacc : run.parseError = false → run.accepted.isSome) :
    ((run.parseError = true ∨ run.lexSawError = true) →
      (parseTemplated run sourceFirstLine lastLine).errLine = run.lexLineNo
      ∧ (parseTemplated run sourceFirstLine lastLine).errMsg = some "Parse error"
      ∧ (parseInner run).sourceElements = none
      ∧ (parseTemplated run sourceFirstLine lastLine).result = none)
    ∧ (run.parseError = false → run.lexSawError = false →
      (parseTemplated run sourceFirstLine lastLine).errLine = -1
      ∧ (parseTemplated run sourceFirstLine lastLine).errMsg = none
      ∧ (parseTemplated run sourceFirstLine lastLine).result.isSome) := by
  constructor
  · intro herr
    rcases herr with h | h <;>
      simp [parseTemplated, parseInner, h]
  · intro hp hl
    rcases Option.isSome_iff_exists.mp (hacc hp) with ⟨elems, he⟩
    simp [parseTemplated, parseInner, hp, hl, he]

/-- Witness for C9: a failing run (parse error at lexer line 17) and a
succeeding run (accepted with source elements tagged 5). -/
theorem parse_error_surfacing_witness :
    (parseTemplated ⟨true, false, 17, none⟩ 1 9).errLine = 17
    ∧ (parseTemplated ⟨true, false, 17, none⟩ 1 9).result = none
    ∧ (parseTemplated ⟨false, false, 3, some (some 5)⟩ 1 9).errLine = -1
    ∧ (parseTemplated ⟨false, false, 3, some (some 5)⟩ 1 9).result.isSome := by
  have hf := (parse_error_surfacing ⟨true, false, 17, none⟩ 1 9
    (by intro h; cases h)).1 (Or.inl rfl)
  have hs := (parse_error_surfacing ⟨false, false, 3, some (some 5)⟩ 1 9
    (by intro h; rfl)).2 rfl rfl
  exact ⟨hf.1, hf.2.2.2, hs.1, hs.2.2⟩

end KJS

namespace JSC

theorem runLivenessCallers_built (compute : CodeBlock → Nat) (a : Nat) :
    ∀ (cs : List CodeBlock) (b : UnlinkedCodeBlock) (n : Nat),
    b.m_liveness = some a →
    runLivenessCallers compute b n cs = (cs.map (fun _ => a), b, n) := by
  intro cs
  induction cs with
  | nil =>
    intro b n hb
    simp [runLivenessCallers]
  | cons cb rest ih =>
    intro b n hb
    simp [runLivenessCallers, livenessAnalysisSlow, hb, ih b n hb]

/-- Claim C2: on a fresh block, any serialization of concurrent callers
of `livenessAnalysisSlow` (the `ConcurrentJSLocker` makes each caller's
check-and-store section atomic, so every interleaving is some caller
order) performs exactly one liveness computation, and every caller
observes the one stored analysis.  `hassert` is the
`RELEASE_ASSERT(codeBlock->unlinkedCodeBlock() == this)`
precondition. -/
theorem liveness_computed_once (compute : CodeBlock → Nat)
    (b0 : UnlinkedCodeBlock) (selfId : Nat) (callers : List CodeBlock)
    (hfresh : b0.m_liveness = none) (hne : callers ≠ [])
    (hassert : ∀ cb ∈ callers, cb.unlinkedCodeBlock = selfId) :
    (runLivenessCallers compute b0 0 callers).2.2 = 1
    ∧ ∃ a, (runLivenessCallers compute b0 0 callers).2.1.m_liveness = some a
        ∧ ∀ r ∈ (runLivenessCallers compute b0 0 callers).1, r = a := by
  cases callers with
  | nil => exact absurd rfl hne
  | cons cb rest =>
    have hstep : livenessAnalysisSlow compute b0 0 cb =
        (compute cb, { b0 with m_liveness := some (compute cb) }, 1) := by
      simp [livenessAnalysisSlow, hfresh]
    have hbuilt : ({ b0 with m_liveness := some (compute cb) } :
        UnlinkedCodeBlock).m_liveness = some (compute cb) := rfl
    have hrest := runLivenessCallers_built compute (compute cb) rest _ 1 hbuilt
    refine ⟨?_, compute cb, ?_, ?_⟩
    · simp [runLivenessCallers, hstep, hrest]
    · simp [runLivenessCallers, hstep, hrest]
    · intro r hr
      have hres : (runLivenessCallers compute b0 0 (cb :: rest)).1 =
          compute cb :: rest.map (fun _ => compute cb) := by
        simp [runLivenessCallers, hstep, hrest]
      rw [hres] at hr
      rcases List.mem_cons.mp hr with h | h
      · exact h
      · rcases List.mem_map.mp h with ⟨x, hx, he⟩
        exact he.symm

/-- Witness for C2: two callers with distinct payloads on a fresh block:
one computation, and both observe the stored analysis. -/
theorem liveness_computed_once_witness :
    (runLivenessCallers (fun cb => cb.payload + 100) sampleFreshBlock 0
      [⟨1, 3⟩, ⟨1, 4⟩]).2.2 = 1 :=
  (liveness_computed_once (fun cb => cb.payload + 100) sampleFreshBlock 1
    [⟨1, 3⟩, ⟨1, 4⟩] rfl (by simp)
    (by intro cb h; simp at h; rcases h with h | h <;> simp [h])).1

end JSC

namespace JSC

/-- Counterexample for C6: the dispatch in `getLineAndColumn` has no
Compact case — for an entry tagged with the spec's Compact mode the
switch falls through, so the out-parameters keep their incoming values
and no (line, column) pair can be decoded from the entry: the same
entry yields two different outputs for two different incoming values. -/
theorem getLineAndColumn_no_compact_case :
    getLineAndColumn sampleFreshBlock compactEntry 0 0 = (0, 0)
    ∧ getLineAndColumn sampleFreshBlock compactEntry 5 7 = (5, 7)
    ∧ getLineAndColumn sampleFreshBlock compactEntry 0 0 ≠
        getLineAndColumn sampleFreshBlock compactEntry 5 7 := by
  refine ⟨rfl, rfl, by decide⟩

/-- Claim C6 (amended): decoding is dispatched on the entry's own mode
among the three modes FatLine, FatColumn and FatLineAndColumn, and for
each of them the decode reproduces the exact (line, column) pair that
was encoded into the entry — FatLineAndColumn entries reading the pair
from the rare-data side table at the entry's stored index. -/
theorem getLineAndColumn_fat_roundtrip (b : UnlinkedCodeBlock)
    (info : ExpressionRangeInfo) (line column l0 c0 : Nat) :
    (info.mode = ExpressionRangeInfoMode.FatLineMode →
      info.position = encodeFatLineMode line column →
      line < 4194304 → column < 256 →
      getLineAndColumn b info l0 c0 = (line, column))
    ∧ (info.mode = ExpressionRangeInfoMode.FatColumnMode →
      info.position = encodeFatColumnMode line column →
      line < 256 → column < 4194304 →
      getLineAndColumn b info l0 c0 = (line, column))
    ∧ (info.mode = ExpressionRangeInfoMode.FatLineAndColumnMode →
      info.position < (fatPositionsOf b).length →
      (fatPositionsOf b).getD info.position default = ⟨line, column⟩ →
      getLineAndColumn b info l0 c0 = (line, column)) := by
  refine ⟨?_, ?_, ?_⟩
  · intro hm hp hl hc
    simp only [getLineAndColumn, hm, hp, encodeFatLineMode, decodeFatLineMode,
      Prod.mk.injEq]
    omega
  · intro hm hp hl hc
    simp only [getLineAndColumn, hm, hp, encodeFatColumnMode, decodeFatColumnMode,
      Prod.mk.injEq]
    omega
  · intro hm hidx hget
    simp only [getLineAndColumn, hm, hget]

/-- Witness for C6 (amended): boundary pairs for the two packed fat modes
and a side-table pair for the fat-line-and-column mode, all decoded
exactly. -/
theorem getLineAndColumn_fat_roundtrip_witness :
    getLineAndColumn sampleRareBlock fatLineEntry 0 0 = (4194303, 17)
    ∧ getLineAndColumn sampleRareBlock fatColumnEntry 0 0 = (9, 4194303)
    ∧ getLineAndColumn sampleRareBlock fatBothEntry 0 0 = (123456, 654321) := by
  refine ⟨(getLineAndColumn_fat_roundtrip sampleRareBlock fatLineEntry
      4194303 17 0 0).1 rfl rfl (by norm_num) (by norm_num),
    (getLineAndColumn_fat_roundtrip sampleRareBlock fatColumnEntry
      9 4194303 0 0).2.1 rfl rfl (by norm_num) (by norm_num),
    (getLineAndColumn_fat_roundtrip sampleRareBlock fatBothEntry
      123456 654321 0 0).2.2 rfl (by decide) (by decide)⟩

end JSC

namespace JSC

theorem offsetAt_lt (tbl : List ExpressionRangeInfo) (i : Nat) (h : i < tbl.length) :
    offsetAt tbl i = (tbl.get ⟨i, h⟩).instructionOffset := by
  simp [offsetAt, List.getD_eq_getElem?_getD, List.getElem?_eq_getElem h]

theorem offsetSorted_index (tbl : List ExpressionRangeInfo) (hs : OffsetSorted tbl) :
    ∀ i j, i ≤ j → j < tbl.length → offsetAt tbl i ≤ offsetAt tbl j := by
  intro i j hij hj
  rcases Nat.eq_or_lt_of_le hij with rfl | hlt
  · exact le_refl _
  · have hi : i < tbl.length := lt_trans hlt hj
    have := List.pairwise_iff_get.mp hs ⟨i, hi⟩ ⟨j, hj⟩ hlt
    rw [offsetAt_lt tbl i hi, offsetAt_lt tbl j hj]
    exact this

theorem searchLoop_invariant (tbl : List ExpressionRangeInfo) (o : Nat)
    (hs : ∀ i j, i ≤ j → j < tbl.length → offsetAt tbl i ≤ offsetAt tbl j) :
    ∀ (n low high : Nat), high - low ≤ n → low ≤ high → high ≤ tbl.length →
    (∀ i, i < low → offsetAt tbl i ≤ o) →
    (∀ i, high ≤ i → i < tbl.length → o < offsetAt tbl i) →
    low ≤ searchLoop tbl o low high ∧ searchLoop tbl o low high ≤ high
    ∧ (∀ i, i < searchLoop tbl o low high → offsetAt tbl i ≤ o)
    ∧ (∀ i, searchLoop tbl o low high ≤ i → i < tbl.length → o < offsetAt tbl i) := by
  intro n
  induction n with
  | zero =>
    intro low high hn hlh hht hlow hhigh
    have hc : ¬ low < high := by omega
    rw [searchLoop, if_neg hc]
    exact ⟨le_refl _, hlh, hlow, fun i h1 h2 => hhigh i (by omega) h2⟩
  | succ n ih =>
    intro low high hn hlh hht hlow hhigh
    by_cases hc : low < high
    · rw [searchLoop, if_pos hc]
      have hmid1 : low ≤ low + (high - low) / 2 := by omega
      have hmid2 : low + (high - low) / 2 < high := by omega
      by_cases hm : offsetAt tbl (low + (high - low) / 2) ≤ o
      · simp only [hm, if_true]
        have hrec := ih (low + (high - low) / 2 + 1) high (by omega) (by omega) hht
          (by
            intro i hi
            by_cases hil : i < low
            · exact hlow i hil
            · exact le_trans (hs i (low + (high - low) / 2) (by omega) (by omega)) hm)
          hhigh
        exact ⟨by omega, hrec.2.1, hrec.2.2.1, hrec.2.2.2⟩
      · simp only [hm, if_false]
        have hrec := ih low (low + (high - low) / 2) (by omega) (by omega) (by omega)
          hlow
          (by
            intro i h1 h2
            have := hs (low + (high - low) / 2) i h1 h2
            omega)
        exact ⟨hrec.1, by omega, hrec.2.2.1, hrec.2.2.2⟩
    · rw [searchLoop, if_neg hc]
      exact ⟨le_refl _, hlh, hlow, fun i h1 h2 => hhigh i (by omega) h2⟩

end JSC

namespace JSC

/-- Claim C1: over a non-empty, offset-sorted source-position table and a
valid bytecode offset `o`, `expressionRangeForBytecodeIndex` returns the
data of the entry with the greatest instruction offset at most `o`
(expressed through its index `k`, the greatest index whose entry's
offset is at most `o`), and when every entry's offset exceeds `o` it
returns the first entry's data (the documented clamp, not an error). -/
theorem expressionRange_binary_search (b : UnlinkedCodeBlock) (o : Nat)
    (hsort : OffsetSorted b.m_expressionInfo)
    (hne : b.m_expressionInfo ≠ [])
    (hvalid : ValidBytecodeOffset b o) :
    (∀ k, k < b.m_expressionInfo.length →
      offsetAt b.m_expressionInfo k ≤ o →
      (∀ i, i < b.m_expressionInfo.length → offsetAt b.m_expressionInfo i ≤ o → i ≤ k) →
      expressionRangeForBytecodeIndex b o = entryData b k)
    ∧ ((∀ i, i < b.m_expressionInfo.length → o < offsetAt b.m_expressionInfo i) →
      expressionRangeForBytecodeIndex b o = entryData b 0) := by
  have hidx := offsetSorted_index _ hsort
  have hlen : 0 < b.m_expressionInfo.length := List.length_pos.mpr hne
  obtain ⟨hge, hle, hbelow, habove⟩ := searchLoop_invariant b.m_expressionInfo o hidx
    b.m_expressionInfo.length 0 b.m_expressionInfo.length (by omega) (by omega)
    (le_refl _) (fun i hi => absurd hi (Nat.not_lt_zero i))
    (fun i h1 h2 => absurd h2 (Nat.not_lt.mpr h1))
  set r := searchLoop b.m_expressionInfo o 0 b.m_expressionInfo.length with hrdef
  have hunfold : expressionRangeForBytecodeIndex b o =
      entryData b ((if r = 0 then 1 else r) - 1) := by
    unfold expressionRangeForBytecodeIndex
    rw [if_neg (by omega)]
  constructor
  · intro k hk hko hkmax
    have hkr : k < r := by
      by_contra hcon
      exact absurd (habove k (by omega) hk) (not_lt.mpr hko)
    have hr0 : r ≠ 0 := by omega
    have hbnd : offsetAt b.m_expressionInfo (r - 1) ≤ o := hbelow (r - 1) (by omega)
    have hkeq : k = r - 1 := by
      have := hkmax (r - 1) (by omega) hbnd
      omega
    rw [hunfold, if_neg hr0, hkeq]
  · intro hall
    have hr0 : r = 0 := by
      by_contra hcon
      exact absurd (hbelow 0 (by omega)) (not_le.mpr (hall 0 hlen))
    rw [hunfold, hr0, if_pos rfl]

/-- Witness for C1, the spec's scenario: entries at instruction offsets
0 and 10; querying offset 4 falls back to the entry at offset 0, whose
index 0 is the greatest index with offset at most 4. -/
theorem expressionRange_binary_search_witness :
    expressionRangeForBytecodeIndex sampleExprBlock 4 = entryData sampleExprBlock 0 :=
  (expressionRange_binary_search sampleExprBlock 4 (by decide) (by decide)
    (by show (4 : Nat) < 30; norm_num)).1 0 (by decide) (by decide) (by decide)

end JSC
